import Mathlib

/-!
A shallow embedding of the `r-git-fu` status reporter.

This file embeds the status-aggregation logic of the `r-git-fu` CLI tool
(`src/git.rs`, `src/primitives.rs`, `src/cli.rs`) and proves the spec's
claims about it.

Modelling conventions:
* git2 commit ids (`Oid`) are modelled as `Nat`; `Oid::zero()` is `0`.
* `repo.graph_ahead_behind` is an external library call; it is modelled as
  an oracle function field `aheadBehind : Nat → Nat → Nat × Nat` on the
  repository model.
* ANSI colouring (`owo_colors`) decorates rendered text but carries no
  data; rendered strings are modelled as their glyph content.
* OS-level failures that the claims never exercise (`read_dir` entry
  errors, non-UTF-8 paths, `file_name()` on `..`) are not modelled.
* `println!` output is modelled by returning the value that would be
  printed (`none` = nothing printed).
-/

namespace RGitFu

/-- Error type from `primitives.rs::FuError`; each variant carries its
rendered message. -/
inductive FuError where
  | Custom (msg : String)
  | Git2Error (msg : String)
  | VarError (msg : String)
  | IoError (msg : String)
deriving Repr, DecidableEq

/-- `primitives.rs::Position`: ahead/behind commit counts. -/
structure Position where
  ahead : Nat
  behind : Nat
deriving Repr, DecidableEq

/-- `primitives.rs::RemoteStatus`. -/
structure RemoteStatus where
  position : Option Position
  refreshed : Bool
deriving Repr, DecidableEq

/-- `primitives.rs::BranchState`. -/
inductive BranchState where
  | Named (name : String)
  | Detached
deriving Repr, DecidableEq

/-- `primitives.rs::DirtyState`. -/
structure DirtyState where
  worktree : Nat
  index : Nat
deriving Repr, DecidableEq

/-- `primitives.rs::RepoStatus`; `head_oid` is a git2 `Oid`, modelled as
`Nat` with `0` for `Oid::zero()`. -/
structure RepoStatus where
  branch : BranchState
  dirty : DirtyState
  position : Option Position
  head_oid : Nat
  remote_status : Option RemoteStatus
deriving Repr, DecidableEq

/-- `primitives.rs::RepoStatus::broken_state`. -/
def RepoStatus.broken_state (broken_state : String) : RepoStatus :=
  { branch := BranchState.Named broken_state
    dirty := { worktree := 0, index := 0 }
    position := none
    head_oid := 0
    remote_status := none }

/-- `primitives.rs::RepoStatus::dirty_marker`, with the `owo_colors`
ANSI decoration abstracted to the glyph content. -/
def RepoStatus.dirty_marker (st : RepoStatus) : String :=
  if st.dirty.worktree == 0 && st.dirty.index == 0 then
    "✔"
  else
    let s := "●"
    let s := if st.dirty.worktree > 0 then s ++ toString st.dirty.worktree else s
    let s := if st.dirty.index > 0 then s ++ ("+" ++ toString st.dirty.index) else s
    s

/-- `primitives.rs::BranchInfo`. -/
structure BranchInfo where
  name : String
  commit_time : Int
  iso_date : String
  delta : String
deriving Repr, DecidableEq

/-- The child process spawned by `git fetch`: whether `Command::spawn`
succeeds, and how many milliseconds the child needs to exit
(`none` = the child never exits on its own). -/
structure FetchChild where
  spawnOk : Bool
  runMs : Option Nat
deriving Repr, DecidableEq

/-- Observable outcome of `fetch_git_with_timeout`: the returned boolean
plus whether the code path called `child.kill()` and `child.wait()`. -/
structure FetchResult where
  refreshed : Bool
  killed : Bool
  reaped : Bool
deriving Repr, DecidableEq

/-- One entry of the git2 status list, as classified by
`git.rs::get_dirty`. -/
structure StatusEntry where
  wt_modified : Bool
  wt_new : Bool
  wt_deleted : Bool
  index_modified : Bool
  index_new : Bool
  index_deleted : Bool
deriving Repr, DecidableEq

/-- Model of one git repository as seen through the git2 queries used by
`git.rs`:
* `headErr`: `repo.head()` fails (e.g. unreadable HEAD);
* `headIsBranch`: `head.is_branch()`;
* `headName`: `head.shorthand()` (`none` = no shorthand available);
* `headOid`: `head.target()`, also the tip of the checked-out branch;
* `upstreamOid`: tip of `branch.upstream()` if an upstream is configured;
* `remoteRefOid`: `refname_to_id("refs/remotes/origin/<branch>")` if that
  ref exists;
* `statusEntries`: the entries returned by `repo.statuses`;
* `workdirOk`: `repo.workdir()` exists and converts to a string;
* `fetchChild`: behaviour of the `git fetch` child process;
* `aheadBehind`: oracle for `repo.graph_ahead_behind`;
* `localBranches`: local branch names with their tip commit times, in
  git2 iteration order. -/
structure Repo where
  headErr : Bool
  headIsBranch : Bool
  headName : Option String
  headOid : Nat
  upstreamOid : Option Nat
  remoteRefOid : Option Nat
  statusEntries : List StatusEntry
  workdirOk : Bool
  fetchChild : FetchChild
  aheadBehind : Nat → Nat → Nat × Nat
  localBranches : List (String × Int)

/-- One entry of `read_dir` on the target path:
* `isDir`: `path.is_dir()`;
* `hasGitDir`: `<path>/.git` exists and is a directory;
* `discoverOk`: `Repository::discover` succeeds;
* `repo`: the discovered repository model. -/
structure DirEntry where
  name : String
  isDir : Bool
  hasGitDir : Bool
  discoverOk : Bool
  repo : Repo

/-- `git.rs::fetch_git_with_timeout`: spawn `git fetch`, wait up to
`timeout_ms`; on exit within the timeout return `true`, on timeout kill
and reap the child and return `false`; a spawn failure is an I/O error. -/
def fetch_git_with_timeout (child : FetchChild) (timeout_ms : Nat) :
    Except FuError FetchResult :=
  if !child.spawnOk then
    Except.error (FuError.IoError "failed to spawn git fetch")
  else
    match child.runMs with
    | some t =>
        if t ≤ timeout_ms then
          Except.ok { refreshed := true, killed := false, reaped := false }
        else
          Except.ok { refreshed := false, killed := true, reaped := true }
    | none => Except.ok { refreshed := false, killed := true, reaped := true }

/-- The fetch child does not exit within `timeout_ms`. -/
def fetch_times_out (child : FetchChild) (timeout_ms : Nat) : Bool :=
  match child.runMs with
  | some t => timeout_ms < t
  | none => true

/-- `git.rs::get_branch_state`. -/
def get_branch_state (r : Repo) : Except FuError BranchState :=
  if r.headIsBranch then
    match r.headName with
    | some n => Except.ok (BranchState.Named n)
    | none => Except.error (FuError.Custom "No name for a named branch")
  else
    Except.ok BranchState.Detached

/-- `git.rs::get_dirty`: count worktree-dirty and index-dirty entries. -/
def get_dirty (r : Repo) : DirtyState :=
  let c := r.statusEntries.foldl
    (fun (acc : Nat × Nat) s =>
      ((if s.wt_modified || s.wt_new || s.wt_deleted then acc.1 + 1 else acc.1),
       (if s.index_modified || s.index_new || s.index_deleted then acc.2 + 1 else acc.2)))
    (0, 0)
  { worktree := c.1, index := c.2 }

/-- `git.rs::get_position`: `none` when HEAD is detached or no upstream is
configured, else the graph ahead/behind counts between the local branch
tip and the upstream tip. -/
def get_position (r : Repo) : Except FuError (Option Position) :=
  if !r.headIsBranch then
    Except.ok none
  else
    match r.upstreamOid with
    | none => Except.ok none
    | some u =>
        let ab := r.aheadBehind r.headOid u
        Except.ok (some { ahead := ab.1, behind := ab.2 })

/-- `git.rs::get_remote_status`: check the workdir, return `none` for a
detached HEAD, run the fetch when requested, then look up
`refs/remotes/origin/<branch>` (absence gives `none`) and compare. -/
def get_remote_status (fetch : Bool) (r : Repo) (timeout_ms : Nat) :
    Except FuError (Option RemoteStatus) :=
  if !r.workdirOk then
    Except.error (FuError.Custom "Cannot find workdir")
  else if !r.headIsBranch then
    Except.ok none
  else
    match (if fetch then
             Except.map FetchResult.refreshed (fetch_git_with_timeout r.fetchChild timeout_ms)
           else Except.ok false) with
    | Except.error e => Except.error e
    | Except.ok refreshed =>
        match r.headName with
        | none => Except.error (FuError.Custom "No branch name")
        | some _ =>
            match r.remoteRefOid with
            | none => Except.ok none
            | some roid =>
                let ab := r.aheadBehind r.headOid roid
                Except.ok (some { position := some { ahead := ab.1, behind := ab.2 }
                                  refreshed := refreshed })

/-- `git.rs::get_repo_state`. -/
def get_repo_state (r : Repo) (fetch remote_status : Bool) (timeout_ms : Nat) :
    Except FuError RepoStatus :=
  if r.headErr then
    Except.error (FuError.Git2Error "cannot read HEAD")
  else
    match get_branch_state r with
    | Except.error e => Except.error e
    | Except.ok branch =>
        let dirty := get_dirty r
        match get_position r with
        | Except.error e => Except.error e
        | Except.ok position =>
            match (if remote_status then get_remote_status fetch r timeout_ms
                   else Except.ok none) with
            | Except.error e => Except.error e
            | Except.ok remote =>
                Except.ok { branch := branch, dirty := dirty, position := position
                            head_oid := r.headOid, remote_status := remote }

/-- `git.rs::gather_git_repo`: require a `.git` directory directly at the
path, then run `Repository::discover`. -/
def gather_git_repo (e : DirEntry) : Except FuError Repo :=
  if !e.hasGitDir then
    Except.error (FuError.Custom ("No .git directory found at " ++ e.name))
  else if !e.discoverOk then
    Except.error (FuError.Git2Error "could not discover repository")
  else
    Except.ok e.repo

/-- The run of `get_repo_state` with these arguments reaches the
`Command::spawn()` call in `fetch_git_with_timeout`: HEAD is readable, the
branch state is constructible, the remote-status pass is requested, the
workdir resolves, HEAD is a branch, and fetching is enabled. -/
def repo_state_reaches_spawn (r : Repo) (fetch remote_status : Bool) : Bool :=
  !r.headErr && (!r.headIsBranch || r.headName.isSome) && remote_status
    && r.workdirOk && r.headIsBranch && fetch

/-- Loop state of `git.rs::get_multi_directory_status`:
`current_fetch_status` and `status_results` are the two mutable locals of
the source loop (the `HashMap` is modelled as an insertion-ordered
association list — directory names are unique); `fetch_attempts` is
instrumentation recording, in order, the names of the directories for
which the loop reached the `git fetch` spawn call. -/
structure MultiState where
  current_fetch_status : Bool
  status_results : List (String × RepoStatus)
  fetch_attempts : List String
deriving Repr, DecidableEq

/-- One iteration of the loop in `git.rs::get_multi_directory_status`:
skip non-repositories; on a successful status, fold its `refreshed` flag
(defaulting to `true` when `remote_status` is `None`) into
`current_fetch_status`; on a failed status record the `broken-head`
sentinel. -/
def multi_step (timeout_ms : Nat) (s : MultiState) (e : DirEntry) : MultiState :=
  match gather_git_repo e with
  | Except.error _ => s
  | Except.ok repo =>
      let attempts :=
        if repo_state_reaches_spawn repo s.current_fetch_status true then
          s.fetch_attempts ++ [e.name]
        else s.fetch_attempts
      match get_repo_state repo s.current_fetch_status true timeout_ms with
      | Except.ok repo_status =>
          { current_fetch_status :=
              ((repo_status.remote_status.map RemoteStatus.refreshed).getD true)
                && s.current_fetch_status
            status_results := s.status_results ++ [(e.name, repo_status)]
            fetch_attempts := attempts }
      | Except.error _ =>
          { current_fetch_status := s.current_fetch_status
            status_results :=
              s.status_results ++ [(e.name, RepoStatus.broken_state "broken-head")]
            fetch_attempts := attempts }

/-- `git.rs::get_multi_directory_status`: filter directories, fold the
loop seeded with the caller's `fetch` flag, return `none` for an empty
result map. -/
def get_multi_directory_status (entries : List DirEntry) (fetch : Bool)
    (timeout_ms : Nat) : Option (List (String × RepoStatus)) :=
  let dirs := entries.filter (fun e => e.isDir)
  let final := dirs.foldl (multi_step timeout_ms)
    { current_fetch_status := fetch, status_results := [], fetch_attempts := [] }
  if final.status_results.isEmpty then none else some final.status_results

/-- The fetch-spawn instrumentation of a whole
`get_multi_directory_status` run. -/
def multi_fetch_attempts (entries : List DirEntry) (fetch : Bool)
    (timeout_ms : Nat) : List String :=
  ((entries.filter (fun e => e.isDir)).foldl (multi_step timeout_ms)
    { current_fetch_status := fetch, status_results := [], fetch_attempts := [] }).fetch_attempts

/-- Default of the `--timeout` flag, from the clap attribute in
`cli.rs::Cli`. -/
def cli_default_timeout : Nat := 2500

/-- Default of the `--fetch` flag, from the clap attribute in
`cli.rs::Cli`. -/
def cli_default_fetch : Bool := false

/-- `cli.rs::get_prompt`: on discovery failure, silently succeed; else
print the repo state collected with `fetch = false` and `timeout_ms = 0`.
The returned `Option` is the printed status (`none` = nothing printed). -/
def get_prompt (e : DirEntry) (remote_status : Bool) :
    Except FuError (Option RepoStatus) :=
  match gather_git_repo e with
  | Except.ok repo => (get_repo_state repo false remote_status 0).map some
  | Except.error _ => Except.ok none

/-- Whether `cli.rs::get_prompt` reaches the `git fetch` spawn call. -/
def prompt_fetch_attempt (e : DirEntry) (remote_status : Bool) : Bool :=
  match gather_git_repo e with
  | Except.ok repo => repo_state_reaches_spawn repo false remote_status
  | Except.error _ => false

/-- Oracle for `display.rs::format_commit_time`: chrono/humantime
formatting depends on the external clock, so it is abstracted as a
function from a commit timestamp to `(iso_date, delta)` or an error. -/
structure TimeFmt where
  fmt : Int → Except FuError (String × String)

/-- The comparator of `git.rs::get_branch_info`'s
`sort_by(|a, b| b.commit_time.cmp(&a.commit_time))`: descending commit
time. -/
def byCommitTimeDesc (a b : BranchInfo) : Prop :=
  b.commit_time ≤ a.commit_time

instance : DecidableRel byCommitTimeDesc :=
  fun a b => inferInstanceAs (Decidable (b.commit_time ≤ a.commit_time))

instance : IsTotal BranchInfo byCommitTimeDesc :=
  ⟨fun a b => le_total b.commit_time a.commit_time⟩

instance : IsTrans BranchInfo byCommitTimeDesc :=
  ⟨fun _ _ _ h1 h2 => le_trans h2 h1⟩

/-- The loop of `git.rs::get_branch_info`: for each local branch, build a
`BranchInfo` from the formatter, push it, and (as in the source) sort the
accumulator by descending commit time inside the loop. Rust's stable
`sort_by` is modelled by insertion sort. -/
def get_branch_info_loop (tf : TimeFmt) (acc : List BranchInfo) :
    List (String × Int) → Except FuError (List BranchInfo)
  | [] => Except.ok acc
  | (name, t) :: rest =>
      match tf.fmt t with
      | Except.error e => Except.error e
      | Except.ok (iso_date, delta) =>
          get_branch_info_loop tf
            ((acc ++ [({ name := name, commit_time := t, iso_date := iso_date
                         delta := delta } : BranchInfo)]).insertionSort byCommitTimeDesc)
            rest

/-- `git.rs::get_branch_info`: `none` when the repository has no local
branches. -/
def get_branch_info (tf : TimeFmt) (r : Repo) :
    Except FuError (Option (List BranchInfo)) :=
  match get_branch_info_loop tf [] r.localBranches with
  | Except.error e => Except.error e
  | Except.ok branches =>
      if branches.isEmpty then
        Except.ok none
      else
        Except.ok (some branches)

/-- `cli.rs::dump_branches`: on discovery failure, silently succeed; else
print the branch table when there is at least one branch. The returned
`Option` is the printed table content (`none` = nothing printed); the
`plain_tables` flag selects a purely cosmetic table style and does not
affect the content. -/
def dump_branches (tf : TimeFmt) (e : DirEntry) (plain_tables : Bool) :
    Except FuError (Option (List BranchInfo)) :=
  match gather_git_repo e with
  | Except.ok repo =>
      let _ := plain_tables
      get_branch_info tf repo
  | Except.error _ => Except.ok none

/-! ### Decomposition of the aggregator fold -/

/-- The fetch flag after one loop iteration, as a function of the flag
before it. -/
def step_flag (timeout_ms : Nat) (b : Bool) (e : DirEntry) : Bool :=
  (multi_step timeout_ms
    { current_fetch_status := b, status_results := [], fetch_attempts := [] }
    e).current_fetch_status

/-- The result entries appended by one loop iteration. -/
def step_results (timeout_ms : Nat) (b : Bool) (e : DirEntry) :
    List (String × RepoStatus) :=
  (multi_step timeout_ms
    { current_fetch_status := b, status_results := [], fetch_attempts := [] }
    e).status_results

/-- The fetch-spawn attempts recorded by one loop iteration. -/
def step_attempts (timeout_ms : Nat) (b : Bool) (e : DirEntry) : List String :=
  (multi_step timeout_ms
    { current_fetch_status := b, status_results := [], fetch_attempts := [] }
    e).fetch_attempts

theorem step_flag_spec (t : Nat) (b : Bool) (e : DirEntry) :
    step_flag t b e =
      (match gather_git_repo e with
       | Except.error _ => b
       | Except.ok repo =>
           match get_repo_state repo b true t with
           | Except.ok st =>
               ((st.remote_status.map RemoteStatus.refreshed).getD true) && b
           | Except.error _ => b) := by
  unfold step_flag multi_step
  cases h : gather_git_repo e with
  | error err => simp
  | ok repo =>
      cases h2 : get_repo_state repo b true t with
      | ok st =>
          by_cases hc : repo_state_reaches_spawn repo b true <;> simp [h2, hc]
      | error err =>
          by_cases hc : repo_state_reaches_spawn repo b true <;> simp [h2, hc]

theorem step_results_spec (t : Nat) (b : Bool) (e : DirEntry) :
    step_results t b e =
      (match gather_git_repo e with
       | Except.error _ => []
       | Except.ok repo =>
           match get_repo_state repo b true t with
           | Except.ok st => [(e.name, st)]
           | Except.error _ => [(e.name, RepoStatus.broken_state "broken-head")]) := by
  unfold step_results multi_step
  cases h : gather_git_repo e with
  | error err => simp
  | ok repo =>
      cases h2 : get_repo_state repo b true t with
      | ok st =>
          by_cases hc : repo_state_reaches_spawn repo b true <;> simp [h2, hc]
      | error err =>
          by_cases hc : repo_state_reaches_spawn repo b true <;> simp [h2, hc]

theorem step_attempts_spec (t : Nat) (b : Bool) (e : DirEntry) :
    step_attempts t b e =
      (match gather_git_repo e with
       | Except.error _ => []
       | Except.ok repo =>
           if repo_state_reaches_spawn repo b true then [e.name] else []) := by
  unfold step_attempts multi_step
  cases h : gather_git_repo e with
  | error err => simp
  | ok repo =>
      cases h2 : get_repo_state repo b true t with
      | ok st =>
          by_cases hc : repo_state_reaches_spawn repo b true <;> simp [h2, hc]
      | error err =>
          by_cases hc : repo_state_reaches_spawn repo b true <;> simp [h2, hc]

theorem multi_step_decomp (t : Nat) (s : MultiState) (e : DirEntry) :
    multi_step t s e =
      { current_fetch_status := step_flag t s.current_fetch_status e
        status_results := s.status_results ++ step_results t s.current_fetch_status e
        fetch_attempts := s.fetch_attempts ++ step_attempts t s.current_fetch_status e } := by
  unfold step_flag step_results step_attempts multi_step
  cases h : gather_git_repo e with
  | error err => simp
  | ok repo =>
      cases h2 : get_repo_state repo s.current_fetch_status true t with
      | ok st =>
          by_cases hc : repo_state_reaches_spawn repo s.current_fetch_status true <;>
            simp [h2, hc]
      | error err =>
          by_cases hc : repo_state_reaches_spawn repo s.current_fetch_status true <;>
            simp [h2, hc]

/-- The fetch flag after running the loop over a list of entries. -/
def run_flag (timeout_ms : Nat) (b : Bool) : List DirEntry → Bool
  | [] => b
  | e :: es => run_flag timeout_ms (step_flag timeout_ms b e) es

/-- The result entries produced by running the loop over a list of
entries starting from flag `b`. -/
def run_results (timeout_ms : Nat) (b : Bool) : List DirEntry → List (String × RepoStatus)
  | [] => []
  | e :: es =>
      step_results timeout_ms b e
        ++ run_results timeout_ms (step_flag timeout_ms b e) es

/-- The fetch-spawn attempts recorded by running the loop over a list of
entries starting from flag `b`. -/
def run_attempts (timeout_ms : Nat) (b : Bool) : List DirEntry → List String
  | [] => []
  | e :: es =>
      step_attempts timeout_ms b e
        ++ run_attempts timeout_ms (step_flag timeout_ms b e) es

theorem multi_foldl_decomp (t : Nat) (es : List DirEntry) (s : MultiState) :
    es.foldl (multi_step t) s =
      { current_fetch_status := run_flag t s.current_fetch_status es
        status_results := s.status_results ++ run_results t s.current_fetch_status es
        fetch_attempts := s.fetch_attempts ++ run_attempts t s.current_fetch_status es } := by
  induction es generalizing s with
  | nil => simp [run_flag, run_results, run_attempts]
  | cons e es ih =>
      simp only [List.foldl_cons]
      rw [multi_step_decomp, ih]
      simp [run_flag, run_results, run_attempts]

theorem get_multi_eq_run (entries : List DirEntry) (fetch : Bool) (t : Nat) :
    get_multi_directory_status entries fetch t =
      (if (run_results t fetch (entries.filter (fun e => e.isDir))).isEmpty then none
       else some (run_results t fetch (entries.filter (fun e => e.isDir)))) := by
  unfold get_multi_directory_status
  dsimp only
  rw [multi_foldl_decomp]
  simp

theorem multi_fetch_attempts_eq_run (entries : List DirEntry) (fetch : Bool) (t : Nat) :
    multi_fetch_attempts entries fetch t =
      run_attempts t fetch (entries.filter (fun e => e.isDir)) := by
  unfold multi_fetch_attempts
  rw [multi_foldl_decomp]
  simp

theorem run_flag_append (t : Nat) (b : Bool) (l1 l2 : List DirEntry) :
    run_flag t b (l1 ++ l2) = run_flag t (run_flag t b l1) l2 := by
  induction l1 generalizing b with
  | nil => simp [run_flag]
  | cons e es ih => simp [run_flag, ih]

theorem run_results_append (t : Nat) (b : Bool) (l1 l2 : List DirEntry) :
    run_results t b (l1 ++ l2) =
      run_results t b l1 ++ run_results t (run_flag t b l1) l2 := by
  induction l1 generalizing b with
  | nil => simp [run_results, run_flag]
  | cons e es ih => simp [run_results, run_flag, ih]

theorem run_attempts_append (t : Nat) (b : Bool) (l1 l2 : List DirEntry) :
    run_attempts t b (l1 ++ l2) =
      run_attempts t b l1 ++ run_attempts t (run_flag t b l1) l2 := by
  induction l1 generalizing b with
  | nil => simp [run_attempts, run_flag]
  | cons e es ih => simp [run_attempts, run_flag, ih]

/-! ### Characterization lemmas -/

/-- The value `get_position` always succeeds with. -/
def position_of (r : Repo) : Option Position :=
  if r.headIsBranch then
    match r.upstreamOid with
    | some u => some { ahead := (r.aheadBehind r.headOid u).1
                       behind := (r.aheadBehind r.headOid u).2 }
    | none => none
  else none

theorem get_position_eq (r : Repo) : get_position r = Except.ok (position_of r) := by
  cases hb : r.headIsBranch <;> cases hu : r.upstreamOid <;>
    simp [get_position, position_of, hb, hu]

theorem fetch_completes_result (c : FetchChild) (t ms : Nat)
    (hs : c.spawnOk = true) (hr : c.runMs = some ms) (hle : ms ≤ t) :
    fetch_git_with_timeout c t =
      Except.ok { refreshed := true, killed := false, reaped := false } := by
  simp [fetch_git_with_timeout, hs, hr, hle]

theorem fetch_timeout_result (c : FetchChild) (t : Nat)
    (hs : c.spawnOk = true) (ht : fetch_times_out c t = true) :
    fetch_git_with_timeout c t =
      Except.ok { refreshed := false, killed := true, reaped := true } := by
  unfold fetch_times_out at ht
  cases hr : c.runMs with
  | none => simp [fetch_git_with_timeout, hs, hr]
  | some ms =>
      rw [hr] at ht
      simp only [decide_eq_true_eq] at ht
      simp [fetch_git_with_timeout, hs, hr, Nat.not_le.mpr ht]

/-- Components of a successful `get_repo_state`. -/
theorem get_repo_state_components (r : Repo) (f rs : Bool) (t : Nat)
    (st : RepoStatus) (h : get_repo_state r f rs t = Except.ok st) :
    r.headErr = false
    ∧ get_branch_state r = Except.ok st.branch
    ∧ st.dirty = get_dirty r
    ∧ st.position = position_of r
    ∧ st.head_oid = r.headOid
    ∧ (if rs then get_remote_status f r t = Except.ok st.remote_status
       else st.remote_status = none) := by
  unfold get_repo_state at h
  split at h
  · exact absurd h (by simp)
  · rename_i hherr
    cases hb : get_branch_state r with
    | error e => rw [hb] at h; simp at h
    | ok branch =>
        rw [hb, get_position_eq] at h
        cases hrs : rs with
        | false =>
            rw [hrs] at h
            simp only [Bool.false_eq_true, if_false] at h
            simp only [Except.ok.injEq] at h
            subst h
            simp_all
        | true =>
            rw [hrs] at h
            simp only [if_true] at h
            cases hr : get_remote_status f r t with
            | error e => rw [hr] at h; simp at h
            | ok remote =>
                rw [hr] at h
                simp only [Except.ok.injEq] at h
                subst h
                simp_all

/-- With fetching disabled, a present remote status always reports
`refreshed = false`. -/
theorem get_remote_status_false_refreshed (r : Repo) (t : Nat)
    (rstat : RemoteStatus)
    (h : get_remote_status false r t = Except.ok (some rstat)) :
    rstat.refreshed = false := by
  unfold get_remote_status at h
  split at h
  · simp at h
  · split at h
    · simp at h
    · simp only [Bool.false_eq_true, if_false] at h
      cases hn : r.headName with
      | none => rw [hn] at h; simp at h
      | some n =>
          rw [hn] at h
          cases hro : r.remoteRefOid with
          | none => rw [hro] at h; simp at h
          | some roid =>
              rw [hro] at h
              simp only [Except.ok.injEq, Option.some.injEq] at h
              subst h
              rfl

/-- Once the running fetch flag is `false`, one loop iteration keeps it
`false`. -/
theorem step_flag_false (t : Nat) (e : DirEntry) : step_flag t false e = false := by
  unfold step_flag multi_step
  cases h : gather_git_repo e with
  | error err => simp
  | ok repo =>
      cases h2 : get_repo_state repo false true t with
      | ok st => simp [h2]
      | error err => simp [h2]

theorem run_flag_false (t : Nat) (es : List DirEntry) :
    run_flag t false es = false := by
  induction es with
  | nil => rfl
  | cons e es ih => simp [run_flag, step_flag_false, ih]

/-- With the flag `false`, an iteration reaches no `git fetch` spawn. -/
theorem step_attempts_false (t : Nat) (e : DirEntry) :
    step_attempts t false e = [] := by
  unfold step_attempts multi_step
  cases h : gather_git_repo e with
  | error err => simp
  | ok repo =>
      have hspawn : repo_state_reaches_spawn repo false true = false := by
        simp [repo_state_reaches_spawn]
      cases h2 : get_repo_state repo false true t with
      | ok st => simp [h2, hspawn]
      | error err => simp [h2, hspawn]

theorem run_attempts_false (t : Nat) (es : List DirEntry) :
    run_attempts t false es = [] := by
  induction es with
  | nil => rfl
  | cons e es ih => simp [run_attempts, step_attempts_false, step_flag_false, ih]

/-- With the flag `false`, every status recorded by an iteration either
has no remote status or reports `refreshed = false`. -/
theorem step_results_false_refreshed (t : Nat) (e : DirEntry)
    (p : String × RepoStatus) (hp : p ∈ step_results t false e) :
    ((p.2).remote_status.map RemoteStatus.refreshed).getD false = false := by
  rw [step_results_spec] at hp
  split at hp
  · simp at hp
  · split at hp
    · rename_i x1 repo h x2 st h2
      simp at hp
      subst hp
      have hc := (get_repo_state_components repo false true t st h2).2.2.2.2.2
      simp only [if_pos rfl] at hc
      cases hrs : st.remote_status with
      | none => simp
      | some rstat =>
          rw [hrs] at hc
          simp [get_remote_status_false_refreshed repo t rstat hc, hrs]
    · rename_i x1 repo h x2 err h2
      simp at hp
      subst hp
      simp [RepoStatus.broken_state]

theorem run_results_false_refreshed (t : Nat) (es : List DirEntry)
    (p : String × RepoStatus) (hp : p ∈ run_results t false es) :
    ((p.2).remote_status.map RemoteStatus.refreshed).getD false = false := by
  induction es with
  | nil => simp [run_results] at hp
  | cons e es ih =>
      rw [run_results, step_flag_false] at hp
      rcases List.mem_append.mp hp with h1 | h2
      · exact step_results_false_refreshed t e p h1
      · exact ih h2

theorem gather_git_repo_ok (e : DirEntry) (h1 : e.hasGitDir = true)
    (h2 : e.discoverOk = true) : gather_git_repo e = Except.ok e.repo := by
  simp [gather_git_repo, h1, h2]

theorem gather_git_repo_ok_inv (e : DirEntry) (r : Repo)
    (h : gather_git_repo e = Except.ok r) :
    r = e.repo ∧ e.hasGitDir = true ∧ e.discoverOk = true := by
  unfold gather_git_repo at h
  split_ifs at h with h1 h2
  simp only [Except.ok.injEq] at h
  exact ⟨h.symm, by simpa using h1, by simpa using h2⟩

theorem gather_git_repo_err (e : DirEntry)
    (h : ¬(e.hasGitDir = true ∧ e.discoverOk = true)) :
    ∃ msg, gather_git_repo e = Except.error msg := by
  unfold gather_git_repo
  by_cases h1 : e.hasGitDir <;> by_cases h2 : e.discoverOk <;>
    simp_all

/-- An iteration records exactly one result entry for a discovered
repository and none otherwise. -/
theorem run_results_nil_iff (t : Nat) (b : Bool) (es : List DirEntry) :
    run_results t b es = [] ↔
      ∀ e ∈ es, ¬(e.hasGitDir = true ∧ e.discoverOk = true) := by
  induction es generalizing b with
  | nil => simp [run_results]
  | cons e es ih =>
      rw [run_results]
      constructor
      · intro h
        have happ := List.append_eq_nil.mp h
        intro x hx
        rcases List.mem_cons.mp hx with hx1 | hx2
        · subst hx1
          intro hcontra
          have hg := gather_git_repo_ok x hcontra.1 hcontra.2
          have hone := happ.1
          rw [step_results_spec, hg] at hone
          cases h2 : get_repo_state x.repo b true t <;> simp [h2] at hone
        · exact (ih (step_flag t b e)).mp happ.2 x hx2
      · intro h
        obtain ⟨msg, hmsg⟩ := gather_git_repo_err e (h e (List.mem_cons_self e es))
        rw [step_results_spec, hmsg]
        simp only [List.nil_append]
        exact (ih (step_flag t b e)).mpr (fun x hx => h x (List.mem_cons_of_mem e hx))

/-! ### Claims -/

/-- C4: `fetch_git_with_timeout` returns `Ok(true)` when the spawned
`git fetch` child exits before the caller-supplied timeout; when the
timeout elapses first it kills the child, reaps it, and returns
`Ok(false)` rather than an error; it returns an error only for an I/O
failure such as spawn failure — a timeout alone never produces an `Err`. -/
theorem claim_c4_fetch_timeout_behavior (child : FetchChild) (t ms : Nat) :
    (child.spawnOk = true → child.runMs = some ms → ms ≤ t →
      fetch_git_with_timeout child t =
        Except.ok { refreshed := true, killed := false, reaped := false })
    ∧ (child.spawnOk = true → fetch_times_out child t = true →
      fetch_git_with_timeout child t =
        Except.ok { refreshed := false, killed := true, reaped := true })
    ∧ ((∃ err, fetch_git_with_timeout child t = Except.error err) ↔
      child.spawnOk = false) := by
  refine ⟨fun hs hr hle => fetch_completes_result child t ms hs hr hle,
          fun hs ht => fetch_timeout_result child t hs ht, ?_⟩
  constructor
  · rintro ⟨err, herr⟩
    by_contra hns
    have hs : child.spawnOk = true := by
      cases hspawn : child.spawnOk
      · exact absurd hspawn hns
      · rfl
    unfold fetch_git_with_timeout at herr
    rw [hs] at herr
    cases hr : child.runMs with
    | none => rw [hr] at herr; simp at herr
    | some u =>
        rw [hr] at herr
        by_cases hle : u ≤ t <;> simp [hle] at herr
  · intro hs
    refine ⟨FuError.IoError "failed to spawn git fetch", ?_⟩
    simp [fetch_git_with_timeout, hs]

/-- Witness for C4 at concrete children: one that exits in 5 ms against a
10 ms timeout, one that needs 20 ms, and one whose spawn fails. -/
theorem claim_c4_fetch_timeout_behavior_witness :
    fetch_git_with_timeout { spawnOk := true, runMs := some 5 } 10 =
      Except.ok { refreshed := true, killed := false, reaped := false }
    ∧ fetch_git_with_timeout { spawnOk := true, runMs := some 20 } 10 =
      Except.ok { refreshed := false, killed := true, reaped := true }
    ∧ ((∃ err, fetch_git_with_timeout { spawnOk := false, runMs := some 5 } 10 =
          Except.error err) ↔
        ({ spawnOk := false, runMs := some 5 } : FetchChild).spawnOk = false) :=
  ⟨(claim_c4_fetch_timeout_behavior { spawnOk := true, runMs := some 5 } 10 5).1
      rfl rfl (by decide),
   (claim_c4_fetch_timeout_behavior { spawnOk := true, runMs := some 20 } 10 0).2.1
      rfl (by decide),
   (claim_c4_fetch_timeout_behavior { spawnOk := false, runMs := some 5 } 10 0).2.2⟩

theorem dot_append_ne_check (s : String) : ("●" ++ s) ≠ "✔" := by
  intro h
  have hd := congrArg String.data h
  rw [String.data_append] at hd
  have hdot : "●".data = ['●'] := by decide
  have hcheck : "✔".data = ['✔'] := by decide
  rw [hdot, hcheck] at hd
  simp at hd

/-- C5: the rendered dirty marker is exactly the clean checkmark glyph
precisely when both dirty counts are zero; otherwise it is the filled-dot
glyph followed by the worktree count (only if nonzero) then a
plus-prefixed index count (only if nonzero), in that order. -/
theorem claim_c5_dirty_marker (st : RepoStatus) :
    (st.dirty_marker = "✔" ↔ (st.dirty.worktree = 0 ∧ st.dirty.index = 0))
    ∧ (st.dirty.worktree ≠ 0 ∨ st.dirty.index ≠ 0 →
      st.dirty_marker =
        "●" ++ (if st.dirty.worktree > 0 then toString st.dirty.worktree else "")
            ++ (if st.dirty.index > 0 then "+" ++ toString st.dirty.index else "")) := by
  constructor
  · constructor
    · intro h
      by_contra hd
      rw [Decidable.not_and_iff_or_not] at hd
      unfold RepoStatus.dirty_marker at h
      have hcond : (st.dirty.worktree == 0 && st.dirty.index == 0) = false := by
        rcases hd with h1 | h1 <;> simp [h1]
      rw [if_neg (by simp [hcond])] at h
      by_cases hw : st.dirty.worktree > 0 <;> by_cases hi : st.dirty.index > 0 <;>
        simp only [hw, hi, if_true, if_false, String.append_assoc] at h <;>
        exact dot_append_ne_check _ h
    · intro ⟨h1, h2⟩
      unfold RepoStatus.dirty_marker
      simp [h1, h2]
  · intro hd
    have hcond : (st.dirty.worktree == 0 && st.dirty.index == 0) = false := by
      rcases hd with h1 | h1 <;> simp [h1]
    unfold RepoStatus.dirty_marker
    rw [if_neg (by simp [hcond])]
    by_cases hw : st.dirty.worktree > 0 <;> by_cases hi : st.dirty.index > 0 <;>
      simp [hw, hi]

/-- Witness for C5: a clean repository renders the checkmark; a repository
with 2 worktree and 3 index entries renders the dot marker. -/
theorem claim_c5_dirty_marker_witness :
    (RepoStatus.broken_state "x").dirty_marker = "✔"
    ∧ ({ branch := BranchState.Detached, dirty := { worktree := 2, index := 3 }
         position := none, head_oid := 1,
         remote_status := none } : RepoStatus).dirty_marker = "●2+3" :=
  ⟨(claim_c5_dirty_marker (RepoStatus.broken_state "x")).1.mpr ⟨rfl, rfl⟩,
   by
    have h := (claim_c5_dirty_marker
      { branch := BranchState.Detached, dirty := { worktree := 2, index := 3 }
        position := none, head_oid := 1, remote_status := none }).2
      (Or.inl (by decide))
    rw [h]
    decide⟩

/-- C2: for every repository whose status collection succeeds, `position`
is `None` exactly when HEAD is detached or the checked-out branch has no
configured upstream; otherwise it is `Some {ahead, behind}` with the
commit-graph reachability counts between the local branch tip and the
upstream tip. -/
theorem claim_c2_position_invariant (r : Repo) (fetch remote : Bool) (t : Nat)
    (st : RepoStatus) (h : get_repo_state r fetch remote t = Except.ok st) :
    (st.position = none ↔ (r.headIsBranch = false ∨ r.upstreamOid = none))
    ∧ (∀ u, r.headIsBranch = true → r.upstreamOid = some u →
      st.position = some { ahead := (r.aheadBehind r.headOid u).1
                           behind := (r.aheadBehind r.headOid u).2 }) := by
  have hp := (get_repo_state_components r fetch remote t st h).2.2.2.1
  constructor
  · rw [hp]
    unfold position_of
    cases hb : r.headIsBranch <;> cases hu : r.upstreamOid <;> simp [hb, hu]
  · intro u hb hu
    rw [hp]
    unfold position_of
    simp [hb, hu]

/-- Witness repository for C2: branch `main` at commit 7 tracking an
upstream at commit 3. -/
def c2_repo : Repo :=
  { headErr := false, headIsBranch := true, headName := some "main"
    headOid := 7, upstreamOid := some 3, remoteRefOid := none
    statusEntries := [], workdirOk := true
    fetchChild := { spawnOk := true, runMs := some 1 }
    aheadBehind := fun a b => (a + b, 2 * b), localBranches := [] }

/-- Witness for C2 at `c2_repo`: status collection succeeds and the
position is the graph counts of (7, 3). -/
theorem claim_c2_position_invariant_witness :
    (∃ st, get_repo_state c2_repo false false 0 = Except.ok st
      ∧ (st.position = none ↔ (c2_repo.headIsBranch = false ∨ c2_repo.upstreamOid = none))
      ∧ st.position = some { ahead := 10, behind := 6 }) := by
  refine ⟨{ branch := BranchState.Named "main", dirty := { worktree := 0, index := 0 }
            position := some { ahead := 10, behind := 6 }, head_oid := 7
            remote_status := none }, rfl, ?_, rfl⟩
  exact (claim_c2_position_invariant c2_repo false false 0 _ rfl).1

/-- C8: for a target path with no `.git` directory directly at it,
repository discovery returns an error, and the prompt and branches
commands print nothing and return success. -/
theorem claim_c8_no_git_silent_noop (e : DirEntry) (remote plain : Bool)
    (tf : TimeFmt) (h : e.hasGitDir = false) :
    (∃ msg, gather_git_repo e = Except.error (FuError.Custom msg))
    ∧ get_prompt e remote = Except.ok none
    ∧ dump_branches tf e plain = Except.ok none := by
  have hg : gather_git_repo e =
      Except.error (FuError.Custom ("No .git directory found at " ++ e.name)) := by
    simp [gather_git_repo, h]
  exact ⟨⟨_, hg⟩, by simp [get_prompt, hg], by simp [dump_branches, hg]⟩

/-- Witness directory entry for C8: no `.git` directory. -/
def c8_entry : DirEntry :=
  { name := "plain", isDir := true, hasGitDir := false, discoverOk := false
    repo := c2_repo }

/-- Witness for C8 at `c8_entry`. -/
theorem claim_c8_no_git_silent_noop_witness :
    (∃ msg, gather_git_repo c8_entry = Except.error (FuError.Custom msg))
    ∧ get_prompt c8_entry true = Except.ok none
    ∧ dump_branches { fmt := fun _ => Except.ok ("", "") } c8_entry false =
      Except.ok none :=
  claim_c8_no_git_silent_noop c8_entry true false
    { fmt := fun _ => Except.ok ("", "") } rfl

/-- C7: the multi-directory aggregator returns the `None` sentinel exactly
when no immediate subdirectory is a git repository; with at least one
discovered repository (healthy or broken) it returns `Some` of a
non-empty mapping. -/
theorem claim_c7_none_sentinel (entries : List DirEntry) (fetch : Bool) (t : Nat) :
    (get_multi_directory_status entries fetch t = none ↔
      ∀ e ∈ entries, ¬(e.isDir = true ∧ e.hasGitDir = true ∧ e.discoverOk = true))
    ∧ (∀ m, get_multi_directory_status entries fetch t = some m → m ≠ []) := by
  have hkey : get_multi_directory_status entries fetch t = none ↔
      run_results t fetch (entries.filter (fun e => e.isDir)) = [] := by
    rw [get_multi_eq_run]
    by_cases hE : (run_results t fetch (entries.filter (fun e => e.isDir))).isEmpty
    · simp [hE, List.isEmpty_iff.mp hE]
    · simp only [hE, Bool.false_eq_true, if_false]
      constructor
      · intro hc
        simp at hc
      · intro hc
        exact absurd (by simp [hc] : (run_results t fetch
          (entries.filter (fun e => e.isDir))).isEmpty = true) hE
  constructor
  · rw [hkey, run_results_nil_iff]
    constructor
    · intro h e he hc
      exact h e (List.mem_filter.mpr ⟨he, hc.1⟩) ⟨hc.2.1, hc.2.2⟩
    · intro h e he hc
      have hm := List.mem_filter.mp he
      exact h e hm.1 ⟨hm.2, hc.1, hc.2⟩
  · intro m hm
    rw [get_multi_eq_run] at hm
    by_cases hE : (run_results t fetch (entries.filter (fun e => e.isDir))).isEmpty
    · rw [if_pos hE] at hm
      exact absurd hm (by simp)
    · rw [if_neg hE] at hm
      simp only [Option.some.injEq] at hm
      subst hm
      intro hc
      exact hE (by simp [hc])

/-- Witness repository for C7: healthy repo, no upstream, no remote ref. -/
def c7_repo : Repo :=
  { headErr := false, headIsBranch := true, headName := some "m"
    headOid := 1, upstreamOid := none, remoteRefOid := none
    statusEntries := [], workdirOk := true
    fetchChild := { spawnOk := true, runMs := some 1 }
    aheadBehind := fun _ _ => (0, 0), localBranches := [] }

/-- Witness directory entry for C7. -/
def c7_entry : DirEntry :=
  { name := "r", isDir := true, hasGitDir := true, discoverOk := true
    repo := c7_repo }

/-- Witness for C7: one repository yields a `Some` non-empty mapping, and
zero repositories yield `none`. -/
theorem claim_c7_none_sentinel_witness :
    get_multi_directory_status [c7_entry] false 0 =
      some [("r", { branch := BranchState.Named "m"
                    dirty := { worktree := 0, index := 0 }
                    position := none, head_oid := 1, remote_status := none })]
    ∧ ([("r", ({ branch := BranchState.Named "m"
                 dirty := { worktree := 0, index := 0 }
                 position := none, head_oid := 1
                 remote_status := none } : RepoStatus))] : List (String × RepoStatus)) ≠ []
    ∧ get_multi_directory_status [] false 0 = none :=
  ⟨rfl,
   (claim_c7_none_sentinel [c7_entry] false 0).2 _ rfl,
   (claim_c7_none_sentinel [] false 0).1.mpr (by simp)⟩

theorem get_branch_info_loop_sorted (tf : TimeFmt) (bs : List (String × Int))
    (acc l : List BranchInfo) (hacc : acc.Sorted byCommitTimeDesc)
    (h : get_branch_info_loop tf acc bs = Except.ok l) :
    l.Sorted byCommitTimeDesc := by
  induction bs generalizing acc with
  | nil =>
      unfold get_branch_info_loop at h
      simp only [Except.ok.injEq] at h
      subst h
      exact hacc
  | cons b rest ih =>
      obtain ⟨name, tm⟩ := b
      unfold get_branch_info_loop at h
      split at h
      · simp at h
      · exact ih _ (List.sorted_insertionSort byCommitTimeDesc _) h

/-- C9: the branch list produced by `get_branch_info` is sorted
non-increasing in `commit_time` (most recent first). -/
theorem claim_c9_branches_sorted (tf : TimeFmt) (r : Repo) (l : List BranchInfo)
    (h : get_branch_info tf r = Except.ok (some l)) :
    l.Sorted byCommitTimeDesc := by
  unfold get_branch_info at h
  split at h
  · simp at h
  · rename_i x branches hloop
    split at h
    · exact absurd h (by simp)
    · simp only [Except.ok.injEq, Option.some.injEq] at h
      subst h
      exact get_branch_info_loop_sorted tf r.localBranches [] branches
        List.sorted_nil hloop

/-- Witness repository for C9 with three local branches out of order. -/
def c9_repo : Repo :=
  { headErr := false, headIsBranch := true, headName := some "x"
    headOid := 1, upstreamOid := none, remoteRefOid := none
    statusEntries := [], workdirOk := true
    fetchChild := { spawnOk := true, runMs := some 1 }
    aheadBehind := fun _ _ => (0, 0)
    localBranches := [("x", 5), ("y", 9), ("z", 7)] }

/-- Trivial time formatter for the C9 witness. -/
def c9_tf : TimeFmt := { fmt := fun t => Except.ok (toString t, "ago") }

/-- Witness for C9 at `c9_repo`: the produced list is `y (9), z (7), x (5)`
and is sorted by descending commit time. -/
theorem claim_c9_branches_sorted_witness :
    get_branch_info c9_tf c9_repo =
      Except.ok (some
        [{ name := "y", commit_time := 9, iso_date := "9", delta := "ago" },
         { name := "z", commit_time := 7, iso_date := "7", delta := "ago" },
         { name := "x", commit_time := 5, iso_date := "5", delta := "ago" }])
    ∧ List.Sorted byCommitTimeDesc
        [{ name := "y", commit_time := 9, iso_date := "9", delta := "ago" },
         { name := "z", commit_time := 7, iso_date := "7", delta := "ago" },
         { name := "x", commit_time := 5, iso_date := "5", delta := "ago" }] :=
  ⟨by rfl, claim_c9_branches_sorted c9_tf c9_repo _ (by rfl)⟩

/-- C3: a discovered repository whose status collection fails is recorded
as the `broken-head` sentinel (zero commit id, zero dirty counts, no
position, no remote status) and the remaining sibling subdirectories are
still processed and reported. -/
theorem claim_c3_broken_sentinel (t : Nat) (fetch : Bool)
    (pre post : List DirEntry) (e : DirEntry)
    (hd : e.isDir = true) (hg1 : e.hasGitDir = true) (hg2 : e.discoverOk = true)
    (hf : ∀ b, ∃ err, get_repo_state e.repo b true t = Except.error err) :
    RepoStatus.broken_state "broken-head" =
      { branch := BranchState.Named "broken-head"
        dirty := { worktree := 0, index := 0 }
        position := none, head_oid := 0, remote_status := none }
    ∧ run_results t fetch ((pre ++ e :: post).filter (fun x => x.isDir)) =
        run_results t fetch (pre.filter (fun x => x.isDir))
          ++ [(e.name, RepoStatus.broken_state "broken-head")]
          ++ run_results t (run_flag t fetch (pre.filter (fun x => x.isDir)))
              (post.filter (fun x => x.isDir))
    ∧ (get_multi_directory_status (pre ++ e :: post) fetch t).isSome = true := by
  have hfilter : (pre ++ e :: post).filter (fun x => x.isDir) =
      pre.filter (fun x => x.isDir) ++ e :: post.filter (fun x => x.isDir) := by
    simp [List.filter_append, List.filter_cons, hd]
  obtain ⟨err, herr⟩ := hf (run_flag t fetch (pre.filter (fun x => x.isDir)))
  have hstep_res : step_results t (run_flag t fetch (pre.filter (fun x => x.isDir))) e =
      [(e.name, RepoStatus.broken_state "broken-head")] := by
    rw [step_results_spec, gather_git_repo_ok e hg1 hg2]
    simp [herr]
  have hstep_flag : step_flag t (run_flag t fetch (pre.filter (fun x => x.isDir))) e =
      run_flag t fetch (pre.filter (fun x => x.isDir)) := by
    rw [step_flag_spec, gather_git_repo_ok e hg1 hg2]
    simp [herr]
  have hmain : run_results t fetch ((pre ++ e :: post).filter (fun x => x.isDir)) =
      run_results t fetch (pre.filter (fun x => x.isDir))
        ++ [(e.name, RepoStatus.broken_state "broken-head")]
        ++ run_results t (run_flag t fetch (pre.filter (fun x => x.isDir)))
            (post.filter (fun x => x.isDir)) := by
    rw [hfilter, run_results_append]
    simp only [run_results]
    rw [hstep_res, hstep_flag]
    simp [List.append_assoc]
  refine ⟨rfl, hmain, ?_⟩
  rw [get_multi_eq_run, hmain]
  have hne : (run_results t fetch (pre.filter (fun x => x.isDir))
      ++ [(e.name, RepoStatus.broken_state "broken-head")]
      ++ run_results t (run_flag t fetch (pre.filter (fun x => x.isDir)))
          (post.filter (fun x => x.isDir))).isEmpty = false := by
    simp
  rw [hne]
  simp

/-- Witness repository for C3 with an unreadable HEAD. -/
def c3_broken_repo : Repo :=
  { headErr := true, headIsBranch := true, headName := some "main"
    headOid := 7, upstreamOid := none, remoteRefOid := none
    statusEntries := [], workdirOk := true
    fetchChild := { spawnOk := true, runMs := some 1 }
    aheadBehind := fun _ _ => (0, 0), localBranches := [] }

/-- Witness sibling repository for C3, healthy. -/
def c3_sib_repo : Repo :=
  { headErr := false, headIsBranch := true, headName := some "dev"
    headOid := 2, upstreamOid := none, remoteRefOid := none
    statusEntries := [], workdirOk := true
    fetchChild := { spawnOk := true, runMs := some 1 }
    aheadBehind := fun _ _ => (0, 0), localBranches := [] }

/-- Witness directory entry for C3: broken repository. -/
def c3_broken_entry : DirEntry :=
  { name := "bad", isDir := true, hasGitDir := true, discoverOk := true
    repo := c3_broken_repo }

/-- Witness directory entry for C3: healthy sibling. -/
def c3_sib_entry : DirEntry :=
  { name := "sib", isDir := true, hasGitDir := true, discoverOk := true
    repo := c3_sib_repo }

/-- Witness for C3: with a broken first repository and a healthy sibling,
the run records the sentinel and still reports the sibling. -/
theorem claim_c3_broken_sentinel_witness :
    run_results 0 false (([] ++ c3_broken_entry :: [c3_sib_entry]).filter
        (fun x => x.isDir)) =
      run_results 0 false (List.filter (fun x => x.isDir) [])
        ++ [("bad", RepoStatus.broken_state "broken-head")]
        ++ run_results 0 (run_flag 0 false (List.filter (fun x => x.isDir) []))
            (List.filter (fun x => x.isDir) [c3_sib_entry])
    ∧ (get_multi_directory_status ([] ++ c3_broken_entry :: [c3_sib_entry])
        false 0).isSome = true :=
  ⟨(claim_c3_broken_sentinel 0 false [] [c3_sib_entry] c3_broken_entry
      rfl rfl rfl (fun b => by cases b <;> exact ⟨_, rfl⟩)).2.1,
   (claim_c3_broken_sentinel 0 false [] [c3_sib_entry] c3_broken_entry
      rfl rfl rfl (fun b => by cases b <;> exact ⟨_, rfl⟩)).2.2⟩

/-- C10: the fetch-skip flag is left unchanged (via `unwrap_or(true)`)
for a repository whose `remote_status` comes back `None` and for one whose
status collection fails, so a fetch that times out in such a repository
never causes later repositories in the batch to skip fetching: the batch
flag, and the attempts and results contributed by the following entries,
are the same as if the repository were absent. -/
theorem claim_c10_flag_unchanged_on_none (t : Nat) (fetch : Bool)
    (pre post : List DirEntry) (e : DirEntry) (hd : e.isDir = true)
    (hcase :
      (∃ st, get_repo_state e.repo
          (run_flag t fetch (pre.filter (fun x => x.isDir))) true t =
            Except.ok st ∧ st.remote_status = none)
      ∨ (∃ err, get_repo_state e.repo
          (run_flag t fetch (pre.filter (fun x => x.isDir))) true t =
            Except.error err)) :
    step_flag t (run_flag t fetch (pre.filter (fun x => x.isDir))) e =
      run_flag t fetch (pre.filter (fun x => x.isDir))
    ∧ run_flag t fetch ((pre ++ e :: post).filter (fun x => x.isDir)) =
      run_flag t fetch ((pre ++ post).filter (fun x => x.isDir))
    ∧ run_attempts t fetch ((pre ++ e :: post).filter (fun x => x.isDir)) =
        run_attempts t fetch (pre.filter (fun x => x.isDir))
          ++ step_attempts t (run_flag t fetch (pre.filter (fun x => x.isDir))) e
          ++ run_attempts t (run_flag t fetch (pre.filter (fun x => x.isDir)))
              (post.filter (fun x => x.isDir))
    ∧ run_attempts t fetch ((pre ++ post).filter (fun x => x.isDir)) =
        run_attempts t fetch (pre.filter (fun x => x.isDir))
          ++ run_attempts t (run_flag t fetch (pre.filter (fun x => x.isDir)))
              (post.filter (fun x => x.isDir)) := by
  have hstep : step_flag t (run_flag t fetch (pre.filter (fun x => x.isDir))) e =
      run_flag t fetch (pre.filter (fun x => x.isDir)) := by
    rw [step_flag_spec]
    cases hgat : gather_git_repo e with
    | error err => rfl
    | ok repo =>
        have hrepo := (gather_git_repo_ok_inv e repo hgat).1
        subst hrepo
        rcases hcase with ⟨st, hok, hnone⟩ | ⟨err, herr⟩
        · simp [hok, hnone]
        · simp [herr]
  have hfilter1 : (pre ++ e :: post).filter (fun x => x.isDir) =
      pre.filter (fun x => x.isDir) ++ e :: post.filter (fun x => x.isDir) := by
    simp [List.filter_append, List.filter_cons, hd]
  have hfilter2 : (pre ++ post).filter (fun x => x.isDir) =
      pre.filter (fun x => x.isDir) ++ post.filter (fun x => x.isDir) := by
    simp [List.filter_append]
  refine ⟨hstep, ?_, ?_, ?_⟩
  · rw [hfilter1, hfilter2, run_flag_append, run_flag_append]
    show run_flag t (run_flag t fetch _)
        (e :: post.filter (fun x => x.isDir)) = _
    rw [run_flag, hstep]
  · rw [hfilter1, run_attempts_append]
    show _ ++ run_attempts t (run_flag t fetch _)
        (e :: post.filter (fun x => x.isDir)) = _
    rw [run_attempts, hstep]
    simp [List.append_assoc]
  · rw [hfilter2, run_attempts_append]

/-- Witness repository for C10: branch head, fetch child that hangs past
any timeout, but no `refs/remotes/origin/<branch>` — its remote status is
`None`. -/
def c10_repo : Repo :=
  { headErr := false, headIsBranch := true, headName := some "main"
    headOid := 7, upstreamOid := some 3, remoteRefOid := none
    statusEntries := [], workdirOk := true
    fetchChild := { spawnOk := true, runMs := none }
    aheadBehind := fun a b => (a, b), localBranches := [] }

/-- Witness sibling repository for C10, with a remote tracking ref and a
fast fetch child. -/
def c10_sib_repo : Repo :=
  { headErr := false, headIsBranch := true, headName := some "dev"
    headOid := 9, upstreamOid := some 4, remoteRefOid := some 4
    statusEntries := [], workdirOk := true
    fetchChild := { spawnOk := true, runMs := some 10 }
    aheadBehind := fun a b => (a, b), localBranches := [] }

/-- Witness directory entry for C10. -/
def c10_entry : DirEntry :=
  { name := "noref", isDir := true, hasGitDir := true, discoverOk := true
    repo := c10_repo }

/-- Witness sibling directory entry for C10. -/
def c10_sib_entry : DirEntry :=
  { name := "sib", isDir := true, hasGitDir := true, discoverOk := true
    repo := c10_sib_repo }

/-- Witness for C10: the repository whose fetch times out but whose
remote status is `None` leaves the flag `true`, and the sibling after it
still attempts its fetch. -/
theorem claim_c10_flag_unchanged_on_none_witness :
    step_flag 100 (run_flag 100 true (List.filter (fun x => x.isDir) []))
        c10_entry =
      run_flag 100 true (List.filter (fun x => x.isDir) [])
    ∧ run_attempts 100 true (([] ++ c10_entry :: [c10_sib_entry]).filter
        (fun x => x.isDir)) =
      run_attempts 100 true (List.filter (fun x => x.isDir) [])
        ++ step_attempts 100 (run_flag 100 true (List.filter (fun x => x.isDir) []))
            c10_entry
        ++ run_attempts 100 (run_flag 100 true (List.filter (fun x => x.isDir) []))
            (List.filter (fun x => x.isDir) [c10_sib_entry])
    ∧ run_attempts 100 (run_flag 100 true (List.filter (fun x => x.isDir) []))
        (List.filter (fun x => x.isDir) [c10_sib_entry]) = ["sib"]
    ∧ fetch_times_out c10_repo.fetchChild 100 = true := by
  have happlied := claim_c10_flag_unchanged_on_none 100 true [] [c10_sib_entry]
    c10_entry rfl
    (Or.inl ⟨{ branch := BranchState.Named "main"
               dirty := { worktree := 0, index := 0 }
               position := some { ahead := 7, behind := 3 }
               head_oid := 7, remote_status := none }, rfl, rfl⟩)
  exact ⟨happlied.1, happlied.2.2.1, by decide, rfl⟩

theorem get_remote_status_timeout_some (r : Repo) (t : Nat)
    (h4 : r.headIsBranch = true) (h5 : r.headName.isSome = true)
    (h6 : r.workdirOk = true) (h7 : r.fetchChild.spawnOk = true)
    (h8 : fetch_times_out r.fetchChild t = true)
    (h9 : r.remoteRefOid.isSome = true) :
    ∃ ab, get_remote_status true r t =
      Except.ok (some { position := some ab, refreshed := false }) := by
  obtain ⟨n, hn⟩ := Option.isSome_iff_exists.mp h5
  obtain ⟨roid, hroid⟩ := Option.isSome_iff_exists.mp h9
  refine ⟨{ ahead := (r.aheadBehind r.headOid roid).1
            behind := (r.aheadBehind r.headOid roid).2 }, ?_⟩
  simp [get_remote_status, h4, h6, fetch_timeout_result r.fetchChild t h7 h8,
    hn, hroid, Except.map]

theorem get_repo_state_timeout_killer (r : Repo) (t : Nat)
    (h3 : r.headErr = false) (h4 : r.headIsBranch = true)
    (h5 : r.headName.isSome = true) (h6 : r.workdirOk = true)
    (h7 : r.fetchChild.spawnOk = true)
    (h8 : fetch_times_out r.fetchChild t = true)
    (h9 : r.remoteRefOid.isSome = true) :
    ∃ st, get_repo_state r true true t = Except.ok st
      ∧ ((st.remote_status.map RemoteStatus.refreshed).getD true) = false := by
  obtain ⟨n, hn⟩ := Option.isSome_iff_exists.mp h5
  obtain ⟨ab, hrs⟩ := get_remote_status_timeout_some r t h4 h5 h6 h7 h8 h9
  refine ⟨{ branch := BranchState.Named n, dirty := get_dirty r
            position := position_of r, head_oid := r.headOid
            remote_status := some { position := some ab, refreshed := false } },
    ?_, rfl⟩
  simp [get_repo_state, get_branch_state, h3, h4, hn, get_position_eq, hrs]

/-- C1 (amended): the running fetch flag is seeded from the caller's
fetch argument; after each discovered repository whose status collection
succeeds it is updated to `(reported refreshed, defaulting to true when
remote_status is None) AND (previous flag)`; consequently, once a
repository *with a present remote status* has its fetch time out, the
flag is false and every subsequently processed repository is queried with
fetch disabled, reaches no fetch spawn, and any reported remote status
has `refreshed = false`. -/
theorem claim_c1_amended_fetch_skip (t : Nat) (fetch : Bool)
    (pre post : List DirEntry) (e : DirEntry)
    (hd : e.isDir = true) (hg1 : e.hasGitDir = true) (hg2 : e.discoverOk = true)
    (h3 : e.repo.headErr = false) (h4 : e.repo.headIsBranch = true)
    (h5 : e.repo.headName.isSome = true) (h6 : e.repo.workdirOk = true)
    (h7 : e.repo.fetchChild.spawnOk = true)
    (h8 : fetch_times_out e.repo.fetchChild t = true)
    (h9 : e.repo.remoteRefOid.isSome = true) :
    (∀ (b : Bool) (d : DirEntry) (repo : Repo) (st : RepoStatus),
      gather_git_repo d = Except.ok repo →
      get_repo_state repo b true t = Except.ok st →
      step_flag t b d =
        (((st.remote_status.map RemoteStatus.refreshed).getD true) && b))
    ∧ (∀ b, step_flag t b e = false)
    ∧ run_flag t fetch ((pre ++ e :: post).filter (fun x => x.isDir)) = false
    ∧ run_attempts t fetch ((pre ++ e :: post).filter (fun x => x.isDir)) =
        run_attempts t fetch ((pre ++ [e]).filter (fun x => x.isDir))
    ∧ run_results t fetch ((pre ++ e :: post).filter (fun x => x.isDir)) =
        run_results t fetch ((pre ++ [e]).filter (fun x => x.isDir))
          ++ run_results t false (post.filter (fun x => x.isDir))
    ∧ (∀ p ∈ run_results t false (post.filter (fun x => x.isDir)),
        ((p.2).remote_status.map RemoteStatus.refreshed).getD false = false) := by
  have hupdate : ∀ (b : Bool) (d : DirEntry) (repo : Repo) (st : RepoStatus),
      gather_git_repo d = Except.ok repo →
      get_repo_state repo b true t = Except.ok st →
      step_flag t b d =
        (((st.remote_status.map RemoteStatus.refreshed).getD true) && b) := by
    intro b d repo st hgat hok
    rw [step_flag_spec, hgat]
    simp [hok]
  have hkill : ∀ b, step_flag t b e = false := by
    intro b
    cases b with
    | false => exact step_flag_false t e
    | true =>
        obtain ⟨st, hok, hrefr⟩ :=
          get_repo_state_timeout_killer e.repo t h3 h4 h5 h6 h7 h8 h9
        rw [hupdate true e e.repo st (gather_git_repo_ok e hg1 hg2) hok, hrefr]
        rfl
  have hfilter1 : (pre ++ e :: post).filter (fun x => x.isDir) =
      pre.filter (fun x => x.isDir) ++ e :: post.filter (fun x => x.isDir) := by
    simp [List.filter_append, List.filter_cons, hd]
  have hfilter2 : (pre ++ [e]).filter (fun x => x.isDir) =
      pre.filter (fun x => x.isDir) ++ [e] := by
    simp [List.filter_append, List.filter_cons, hd]
  have hflag : run_flag t fetch ((pre ++ e :: post).filter (fun x => x.isDir)) =
      false := by
    rw [hfilter1, run_flag_append]
    show run_flag t (run_flag t fetch _) (e :: post.filter (fun x => x.isDir)) = _
    rw [run_flag, hkill, run_flag_false]
  refine ⟨hupdate, hkill, hflag, ?_, ?_, ?_⟩
  · rw [hfilter1, hfilter2, run_attempts_append, run_attempts_append]
    show _ ++ run_attempts t (run_flag t fetch _)
        (e :: post.filter (fun x => x.isDir)) = _
    rw [run_attempts, hkill, run_attempts_false]
    show _ ++ (step_attempts t _ e ++ []) = _ ++
      run_attempts t (run_flag t fetch (pre.filter (fun x => x.isDir))) [e]
    rw [run_attempts, run_attempts]
  · rw [hfilter1, hfilter2, run_results_append, run_results_append]
    show _ ++ run_results t (run_flag t fetch _)
        (e :: post.filter (fun x => x.isDir)) = _
    rw [run_results, hkill]
    show _ ++ (step_results t _ e ++ run_results t false _) = _
    rw [run_results, run_results]
    simp [List.append_assoc]
  · exact fun p hp => run_results_false_refreshed t _ p hp

/-- C1 counterexample repo "a": branch head, upstream configured, fetch
child needing 500 ms, but no `refs/remotes/origin/main`. -/
def c1x_repo_a : Repo :=
  { headErr := false, headIsBranch := true, headName := some "main"
    headOid := 7, upstreamOid := some 3, remoteRefOid := none
    statusEntries := [], workdirOk := true
    fetchChild := { spawnOk := true, runMs := some 500 }
    aheadBehind := fun a b => (a, b), localBranches := [] }

/-- C1 counterexample repo "b": healthy with a remote tracking ref and a
fast fetch child. -/
def c1x_repo_b : Repo :=
  { headErr := false, headIsBranch := true, headName := some "dev"
    headOid := 9, upstreamOid := some 4, remoteRefOid := some 4
    statusEntries := [], workdirOk := true
    fetchChild := { spawnOk := true, runMs := some 10 }
    aheadBehind := fun a b => (a, b), localBranches := [] }

/-- C1 counterexample directory entry "a". -/
def c1x_entry_a : DirEntry :=
  { name := "a", isDir := true, hasGitDir := true, discoverOk := true
    repo := c1x_repo_a }

/-- C1 counterexample directory entry "b". -/
def c1x_entry_b : DirEntry :=
  { name := "b", isDir := true, hasGitDir := true, discoverOk := true
    repo := c1x_repo_b }

/-- C1 counterexample: in the batch `[a, b]` with `fetch = true` and a
100 ms timeout, repo `a`'s fetch times out (500 > 100) and its status
collection succeeds, yet — because `a`'s remote status is `None` and the
update uses `unwrap_or(true)` — repo `b` is still queried with fetch
enabled: a fetch subprocess is spawned for `b` and `b` reports
`refreshed = true`, contradicting the claim that after any timeout all
subsequent repositories are fetch-disabled, unfetched, and report
`refreshed = false`. -/
theorem claim_c1_counterexample :
    fetch_times_out c1x_repo_a.fetchChild 100 = true
    ∧ get_repo_state c1x_repo_a true true 100 =
        Except.ok { branch := BranchState.Named "main"
                    dirty := { worktree := 0, index := 0 }
                    position := some { ahead := 7, behind := 3 }
                    head_oid := 7, remote_status := none }
    ∧ multi_fetch_attempts [c1x_entry_a, c1x_entry_b] true 100 = ["a", "b"]
    ∧ (get_multi_directory_status [c1x_entry_a, c1x_entry_b] true 100).map
        (List.map (fun p =>
          (p.1, ((p.2).remote_status.map RemoteStatus.refreshed).getD false)))
      = some [("a", false), ("b", true)] := by
  refine ⟨rfl, rfl, by decide, by decide⟩

/-- C1 witness repo: branch head, remote tracking ref present, fetch
child that hangs forever. -/
def c1w_repo : Repo :=
  { headErr := false, headIsBranch := true, headName := some "main"
    headOid := 9, upstreamOid := some 4, remoteRefOid := some 4
    statusEntries := [], workdirOk := true
    fetchChild := { spawnOk := true, runMs := none }
    aheadBehind := fun a b => (a, b), localBranches := [] }

/-- C1 witness sibling repo with a fast fetch child. -/
def c1w_sib_repo : Repo :=
  { headErr := false, headIsBranch := true, headName := some "dev"
    headOid := 5, upstreamOid := some 2, remoteRefOid := some 2
    statusEntries := [], workdirOk := true
    fetchChild := { spawnOk := true, runMs := some 10 }
    aheadBehind := fun a b => (a, b), localBranches := [] }

/-- C1 witness directory entry whose fetch times out with a present
remote status. -/
def c1w_entry : DirEntry :=
  { name := "slow", isDir := true, hasGitDir := true, discoverOk := true
    repo := c1w_repo }

/-- C1 witness sibling directory entry. -/
def c1w_sib_entry : DirEntry :=
  { name := "after", isDir := true, hasGitDir := true, discoverOk := true
    repo := c1w_sib_repo }

/-- Witness for the amended C1 at a concrete batch: after `slow` (fetch
times out, remote status present) the flag is false, `after` reaches no
fetch spawn, and every status recorded under the false flag reports
`refreshed = false`. -/
theorem claim_c1_amended_fetch_skip_witness :
    run_flag 100 true (([] ++ c1w_entry :: [c1w_sib_entry]).filter
        (fun x => x.isDir)) = false
    ∧ run_attempts 100 true (([] ++ c1w_entry :: [c1w_sib_entry]).filter
        (fun x => x.isDir)) =
      run_attempts 100 true (([] ++ [c1w_entry]).filter (fun x => x.isDir))
    ∧ (∀ p ∈ run_results 100 false (List.filter (fun x => x.isDir)
          [c1w_sib_entry]),
        ((p.2).remote_status.map RemoteStatus.refreshed).getD false = false) := by
  have happlied := claim_c1_amended_fetch_skip 100 true [] [c1w_sib_entry]
    c1w_entry rfl rfl rfl rfl rfl rfl rfl rfl rfl rfl
  exact ⟨happlied.2.2.1, happlied.2.2.2.1, happlied.2.2.2.2.2⟩

/-- C6 (amended): the CLI's `--timeout` default is 2500 ms, but the
`prompt` subcommand never attempts a remote refresh: its handler invokes
status collection with fetch hard-coded to `false` (and timeout 0), so no
`git fetch` spawn is ever reached and any remote status it prints reports
`refreshed = false`. -/
theorem claim_c6_amended_prompt_never_fetches (e : DirEntry) (remote : Bool) :
    prompt_fetch_attempt e remote = false
    ∧ cli_default_timeout = 2500
    ∧ (∀ st, get_prompt e remote = Except.ok (some st) →
        ((st.remote_status.map RemoteStatus.refreshed).getD false) = false) := by
  refine ⟨?_, rfl, ?_⟩
  · unfold prompt_fetch_attempt
    cases hgat : gather_git_repo e with
    | error err => rfl
    | ok repo => simp [repo_state_reaches_spawn]
  · intro st h
    unfold get_prompt at h
    cases hgat : gather_git_repo e with
    | error err => rw [hgat] at h; simp at h
    | ok repo =>
        rw [hgat] at h
        have h' : Except.map some (get_repo_state repo false remote 0) =
            Except.ok (some st) := h
        cases hg : get_repo_state repo false remote 0 with
        | error err => rw [hg] at h'; simp [Except.map] at h'
        | ok st' =>
            rw [hg] at h'
            simp only [Except.map, Except.ok.injEq, Option.some.injEq] at h'
            subst h'
            have hc := (get_repo_state_components repo false remote 0 st' hg).2.2.2.2.2
            cases hrem : remote with
            | false =>
                rw [hrem] at hc
                simp only [Bool.false_eq_true, if_false] at hc
                simp [hc]
            | true =>
                rw [hrem] at hc
                simp only [if_true] at hc
                cases hrs : st'.remote_status with
                | none => simp
                | some rstat =>
                    rw [hrs] at hc
                    simp [get_remote_status_false_refreshed repo 0 rstat hc, hrs]

/-- C6 witness/counterexample repo: branch head, remote tracking ref, and
a fetch child that would complete in 1 ms — far within the 2500 ms
default timeout. -/
def c6_repo : Repo :=
  { headErr := false, headIsBranch := true, headName := some "main"
    headOid := 9, upstreamOid := some 4, remoteRefOid := some 4
    statusEntries := [], workdirOk := true
    fetchChild := { spawnOk := true, runMs := some 1 }
    aheadBehind := fun a b => (a, b), localBranches := [] }

/-- C6 witness/counterexample directory entry. -/
def c6_entry : DirEntry :=
  { name := "repo", isDir := true, hasGitDir := true, discoverOk := true
    repo := c6_repo }

/-- Witness for the amended C6 at `c6_entry` with remote comparison on. -/
theorem claim_c6_amended_prompt_never_fetches_witness :
    prompt_fetch_attempt c6_entry true = false
    ∧ cli_default_timeout = 2500
    ∧ get_prompt c6_entry true =
        Except.ok (some { branch := BranchState.Named "main"
                          dirty := { worktree := 0, index := 0 }
                          position := some { ahead := 9, behind := 4 }
                          head_oid := 9
                          remote_status := some { position := some { ahead := 9, behind := 4 }
                                                  refreshed := false } })
    ∧ (({ branch := BranchState.Named "main"
          dirty := { worktree := 0, index := 0 }
          position := some { ahead := 9, behind := 4 }
          head_oid := 9
          remote_status := some { position := some { ahead := 9, behind := 4 }
                                  refreshed := false } } : RepoStatus).remote_status.map
        RemoteStatus.refreshed).getD false = false := by
  have happlied := claim_c6_amended_prompt_never_fetches c6_entry true
  exact ⟨happlied.1, happlied.2.1, rfl, happlied.2.2 _ rfl⟩

/-- C6 counterexample: with remote comparison enabled, a repository whose
`git fetch` child would succeed within 1 ms (fetch_times_out against the
2500 ms default is false) is still never fetched by `prompt`: no spawn is
reached and the printed status carries `refreshed = false`. The claim
that `prompt --fetch` attempts a remote refresh bounded by `--timeout`
is therefore false — the handler passes a literal `false` and `0`. -/
theorem claim_c6_counterexample :
    c6_repo.fetchChild.spawnOk = true
    ∧ fetch_times_out c6_repo.fetchChild cli_default_timeout = false
    ∧ prompt_fetch_attempt c6_entry true = false
    ∧ (get_prompt c6_entry true).map
        (Option.map (fun st =>
          ((st.remote_status.map RemoteStatus.refreshed).getD false))) =
      Except.ok (some false) := by
  refine ⟨rfl, rfl, by decide, rfl⟩

end RGitFu
